import Mathlib

/-!
Verification of the response-to-action extraction pipeline and episode control
loop of the MLE-dojo agent harness (src/agent/wrappers/mledojo_wrapper.py and
src/agent/core/prompts.py).

Text is modelled as `List Char` (Python `str`, code-point sequences).  Python's
`ast.parse`-succeeds check is an external collaborator (the CPython parser),
so it is modelled as an abstract oracle `parseOk : List Char → Bool` over which
the extraction theorems are universally quantified.  Scores and rewards
(`float` in Python) are modelled as `Rat`: the bookkeeping under verification
performs only assignments, comparisons against literals, and a running sum, so
the claims are insensitive to the numeric representation.
-/

/-- ASCII whitespace, the characters recognised by Python's `str.strip()` and
by the regex class `\s` on the ASCII plane (the repository only handles ASCII
delimiters and markers). -/
def isWS (c : Char) : Bool :=
  c = ' ' || c = '\t' || c = '\n' || c = '\r' || c = '\x0b' || c = '\x0c'

/-- Python `str.strip()`: drop whitespace from both ends. -/
def pyStrip (l : List Char) : List Char :=
  ((l.dropWhile isWS).reverse.dropWhile isWS).reverse

/-- `isStartOf p l` : `l` starts with `p` (Python `str.startswith`). -/
def isStartOf : List Char → List Char → Bool
  | [], _ => true
  | _, [] => false
  | a :: ps, b :: ls => a = b && isStartOf ps ls

/-- `l` ends with `s` (Python `str.endswith`). -/
def isEndOf (s l : List Char) : Bool :=
  isStartOf s.reverse l.reverse

/-- Python `str.startswith(tuple)`: some alternative is a leading part of `l`. -/
def startsWithAny (alts : List (List Char)) (l : List Char) : Bool :=
  alts.any (fun p => isStartOf p l)

/-- Python `needle in hay` substring membership. -/
def containsSub (needle : List Char) : List Char → Bool
  | [] => needle.isEmpty
  | c :: rest => isStartOf needle (c :: rest) || containsSub needle rest

/-- If `p` is a leading part of `l`, return the remainder. -/
def dropStart? : List Char → List Char → Option (List Char)
  | [], l => some l
  | _ :: _, [] => none
  | a :: ps, b :: ls => if a = b then dropStart? ps ls else none

/-- Split `l` at the first occurrence of `delim`, returning the part before it
and the part after it (the lazy capture `(.*?)delim` of the regexes). -/
def splitAtSub? (delim : List Char) : List Char → Option (List Char × List Char)
  | [] => match delim with
    | [] => some ([], [])
    | _ :: _ => none
  | c :: rest =>
    match dropStart? delim (c :: rest) with
    | some after => some ([], after)
    | none =>
      match splitAtSub? delim rest with
      | some pq => some (c :: pq.1, pq.2)
      | none => none

/-- The effect of the regex fragment `\s*\n` with backtracking: consume the
maximal whitespace run at the head of `l` up to (and including) the last
newline inside it; `none` when the run contains no newline. -/
def afterWsNl : List Char → Option (List Char)
  | [] => none
  | c :: rest =>
    if c = '\n' then
      match afterWsNl rest with
      | some r => some r
      | none => some rest
    else if isWS c then afterWsNl rest
    else none

/-- The fence delimiter of the markdown patterns. -/
def fenceDelim : List Char := "```".toList

/-- Match, at the head of `l`, one language-tag alternative followed by
`\s*\n(.*?)` and a closing fence; returns the capture and the rest of the
text after the match. -/
def matchTagAt (tag : List Char) (l : List Char) : Option (List Char × List Char) :=
  match dropStart? tag l with
  | none => none
  | some r1 =>
    match afterWsNl r1 with
    | none => none
    | some r2 => splitAtSub? fenceDelim r2

/-- Try the tag alternatives in regex alternation order. -/
def matchTagsAt (tags : List (List Char)) (l : List Char) : Option (List Char × List Char) :=
  match tags with
  | [] => none
  | t :: ts =>
    match matchTagAt t l with
    | some res => some res
    | none => matchTagsAt ts l

/-- Match a whole fenced block at the head of `l`: an opening fence, a tag
alternative, `\s*\n`, the lazy capture, and a closing fence. -/
def matchFencedAt (tags : List (List Char)) (l : List Char) : Option (List Char × List Char) :=
  match dropStart? fenceDelim l with
  | none => none
  | some r => matchTagsAt tags r

/-- Fuelled scanner realising `re.findall` (leftmost, non-overlapping; the
fuel is an upper bound on the number of scanning steps, each of which consumes
at least one character). -/
def findFencedAux (tags : List (List Char)) : Nat → List Char → List (List Char)
  | 0, _ => []
  | _ + 1, [] => []
  | n + 1, c :: rest =>
    match matchFencedAt tags (c :: rest) with
    | some capAfter => capAfter.1 :: findFencedAux tags n capAfter.2
    | none => findFencedAux tags n rest

/-- All captures of a fenced-block pattern in document order. -/
def findFenced (tags : List (List Char)) (l : List Char) : List (List Char) :=
  findFencedAux tags l.length l

/-- `re.findall(r"` ``` `(?:python|py)\s*\n(.*?)` ``` `", response, re.DOTALL)`
(mledojo_wrapper.py lines 333-334): fenced blocks with a python/py tag. -/
def findTagged (response : List Char) : List (List Char) :=
  findFenced ["python".toList, "py".toList] response

/-- `re.findall(r"` ``` `\s*\n(.*?)` ``` `", response, re.DOTALL)`
(mledojo_wrapper.py lines 339-340): fenced blocks without a language tag. -/
def findPlain (response : List Char) : List (List Char) :=
  findFenced [[]] response

/-- Match `<code>(.*?)</code>` at the head of `l`. -/
def matchXmlAt (l : List Char) : Option (List Char × List Char) :=
  match dropStart? ("<code>".toList) l with
  | none => none
  | some r => splitAtSub? ("</code>".toList) r

/-- Fuelled scanner for the XML-like pattern. -/
def findXmlAux : Nat → List Char → List (List Char)
  | 0, _ => []
  | _ + 1, [] => []
  | n + 1, c :: rest =>
    match matchXmlAt (c :: rest) with
    | some capAfter => capAfter.1 :: findXmlAux n capAfter.2
    | none => findXmlAux n rest

/-- `re.findall(r"<code>(.*?)</code>", response, re.DOTALL)`
(mledojo_wrapper.py lines 344-345). -/
def findXml (response : List Char) : List (List Char) :=
  findXmlAux response.length response

/-- Python `"a\nb".split("\n")` (note `"".split("\n") == [""]`). -/
def splitNl : List Char → List (List Char)
  | [] => [[]]
  | c :: rest =>
    if c = '\n' then [] :: splitNl rest
    else
      match splitNl rest with
      | [] => [[c]]
      | l :: ls => (c :: l) :: ls

/-- Python `"\n".join(lines)`. -/
def joinNl : List (List Char) → List Char
  | [] => []
  | [l] => l
  | l :: ls => l ++ '\n' :: joinNl ls

/-- Count of whitespace-separated words, Python `len(s.split())`; the Boolean
tracks whether the scanner is currently inside a word. -/
def wordsAux : List Char → Bool → Nat
  | [], _ => 0
  | c :: rest, inWord =>
    if isWS c then wordsAux rest false
    else if inWord then wordsAux rest true
    else 1 + wordsAux rest true

/-- Python `len(s.split())`. -/
def pyWordCount (l : List Char) : Nat :=
  wordsAux l false

/-- Start-of-code-block keywords of the heuristic scan
(mledojo_wrapper.py line 358). -/
def codeStartKeywords : List (List Char) :=
  ["import ", "from ", "def ", "class ", "async def"].map String.toList

/-- Discourse markers treated as natural language by the heuristic scan
(mledojo_wrapper.py line 364). -/
def nlStarters : List (List Char) :=
  ["I will", "Let me", "First", "Then", "Now", "Here", "This"].map String.toList

/-- The natural-language filter of the heuristic scan (the `any([...])` of
mledojo_wrapper.py lines 363-367). -/
def looksNL (stripped : List Char) : Bool :=
  startsWithAny nlStarters stripped ||
  isEndOf ("?".toList) stripped ||
  isEndOf (":".toList) stripped ||
  (decide (pyWordCount stripped > 15) && !containsSub ("=".toList) stripped)

/-- The line loop of strategy 3 (mledojo_wrapper.py lines 354-370): once a
line starts with a code keyword the scanner is "in code"; while in code, keep
blank lines and lines that do not look like natural language. -/
def heuristicScanAux : List (List Char) → Bool → List (List Char)
  | [], _ => []
  | line :: rest, in_code =>
    let stripped := pyStrip line
    let in_code2 := in_code || startsWithAny codeStartKeywords stripped
    if in_code2 then
      if stripped ≠ [] then
        if looksNL stripped then heuristicScanAux rest in_code2
        else line :: heuristicScanAux rest in_code2
      else line :: heuristicScanAux rest in_code2
    else heuristicScanAux rest in_code2

/-- Strategy 3 (mledojo_wrapper.py lines 348-373): the heuristic line scan,
yielding one joined candidate when any line was retained. -/
def heuristicCandidates (response : List Char) : List (List Char) :=
  let code_lines := heuristicScanAux (splitNl response) false
  if code_lines = [] then [] else [joinNl code_lines]

/-- Explanatory-line markers of the cleanup pass (mledojo_wrapper.py line 416). -/
def cleanupMarkers : List (List Char) :=
  ["Note:", "This will", "The above", "Output:"].map String.toList

/-- The per-line keep condition of `_clean_code` (mledojo_wrapper.py
lines 413-421): drop explanatory lines and comment lines longer than 50
characters. -/
def keepLine (line : List Char) : Bool :=
  let stripped := pyStrip line
  !(startsWithAny cleanupMarkers stripped) &&
  !(isStartOf ("#".toList) stripped && decide (stripped.length > 50))

/-- `MLEDojoWrapper._clean_code` (mledojo_wrapper.py lines 400-423). -/
def _clean_code (code : List Char) : List Char :=
  pyStrip (joinNl ((splitNl code).filter keepLine))

/-- The candidate pool of `_extract_code` (mledojo_wrapper.py lines 329-373):
tagged fenced blocks; untagged fenced blocks only when no tagged block was
found; XML-tagged blocks always appended; the heuristic scan only when the
pool is still empty. -/
def code_candidates (response : List Char) : List (List Char) :=
  let cands1 := findTagged response
  let cands2 := if cands1 = [] then cands1 ++ findPlain response else cands1
  let cands3 := cands2 ++ findXml response
  if cands3 = [] then cands3 ++ heuristicCandidates response else cands3

/-- The validation loop of `_extract_code` (mledojo_wrapper.py lines 375-394):
strip each candidate, skip empties, accept the first that parses, retrying
once after `_clean_code` on a syntax error. -/
def selectCandidate (parseOk : List Char → Bool) : List (List Char) → Option (List Char)
  | [] => none
  | cand :: rest =>
    let c := pyStrip cand
    if c = [] then selectCandidate parseOk rest
    else if parseOk c then some c
    else
      let fixed := _clean_code c
      if parseOk fixed then some fixed
      else selectCandidate parseOk rest

/-- `MLEDojoWrapper._extract_code` (mledojo_wrapper.py lines 313-398).  The
`ValueError` carries `response[:200]` inside its message; the error payload
here is that truncated preview. -/
def _extract_code (parseOk : List Char → Bool) (response : List Char) :
    Except (List Char) (List Char) :=
  match selectCandidate parseOk (code_candidates response) with
  | some c => Except.ok c
  | none => Except.error (response.take 200)

/-- A history entry of the Prompt Composer, Python dict
`{"observation": ..., "response": ...}` (prompts.py). -/
structure HistoryEntry where
  observation : String
  response : String
deriving DecidableEq

/-- Python slice `l[k:]` for a possibly negative `k` (negative indices count
from the end and are clamped at 0; non-negative starts are clamped at the
length). -/
def pySliceFrom (k : Int) (l : List α) : List α :=
  if k < 0 then l.drop (max ((l.length : Int) + k) 0).toNat
  else l.drop (min k (l.length : Int)).toNat

/-- The window selection of `PromptManager._format_history` (prompts.py
line 164): `history[-max_turns:] if len(history) > max_turns else history`. -/
def recent_history (history : List HistoryEntry) (max_turns : Int) : List HistoryEntry :=
  if (history.length : Int) > max_turns then pySliceFrom (-max_turns) history
  else history

/-- The four lines rendered for one included turn (prompts.py lines 168-171). -/
def formatTurn (i : Nat) (t : HistoryEntry) : List String :=
  ["### Turn " ++ toString i,
   "**Observation:** " ++ t.observation,
   "**Response:** " ++ t.response,
   ""]

/-- `enumerate(recent_history, 1)` composed with the turn renderer: number the
included turns starting at 1 within the window. -/
def numberTurnsFrom (n : Nat) : List HistoryEntry → List (List String)
  | [] => []
  | t :: ts => formatTurn n t :: numberTurnsFrom (n + 1) ts

/-- `PromptManager._format_history` (prompts.py lines 152-173); `max_turns`
defaults to 10 at the call sites. -/
def _format_history (history : List HistoryEntry) (max_turns : Int) : String :=
  String.intercalate "\n" (List.flatten (numberTurnsFrom 1 (recent_history history max_turns)))

/-- An environment observation (the nested mapping consumed by
`run_episode`): `feedback` models the nested lookup
`obs.get('feedback', {}).get('base', {}).get('feedback', '')`; the other
fields model `obs.get(key, default)` with `none` for an absent key. -/
structure Observation where
  feedback : Option (List Char)
  current_position_score : Option Rat
  best_position_score : Option Rat
  action_status : Option (List Char)
deriving DecidableEq

/-- `obs.get('feedback', {}).get('base', {}).get('feedback', '')`. -/
def Observation.feedbackD (o : Observation) : List Char :=
  o.feedback.getD []

/-- `obs.get('current_position_score', 0.0)`. -/
def Observation.scoreD (o : Observation) : Rat :=
  o.current_position_score.getD 0

/-- `obs.get('action_status', 'UNKNOWN')`. -/
def Observation.statusD (o : Observation) : List Char :=
  o.action_status.getD ("UNKNOWN".toList)

/-- An action submitted to the environment collaborator:
`env.step("execute_code", code=...)` or `env.step("request_info", info_type=...)`. -/
inductive ActionCall where
  | execute_code (code : List Char)
  | request_info (info_type : List Char)
deriving DecidableEq

/-- One entry of the `feedback_history` ledger (mledojo_wrapper.py
lines 283-288). -/
structure StepRecord where
  step : Nat
  action_status : List Char
  reward : Rat
  cumulative_score : Rat
deriving DecidableEq

/-- The wrapper's own mutable fields (mledojo_wrapper.py lines 43-45). -/
structure WrapperState where
  episode_count : Nat
  total_reward : Rat
  current_episode_reward : Rat
deriving DecidableEq

/-- The `context` dict assembled for the agent each step (mledojo_wrapper.py
lines 220-226). -/
structure StepContext where
  step : Nat
  max_steps : Int
  current_reward : Rat
  best_reward : Rat
  feedback : List Char
deriving DecidableEq

/-- The two external collaborators, modelled as deterministic state-passing
oracles: `envStep` returns the new environment state together with either a
raised exception's message or the `(observation, reward)` pair; `agentGen` is
`agent.generate_response`, returning the new agent state and the response
text; `agentReset` is `agent.reset`. -/
structure Collab (ε α : Type) where
  envStep : ε → ActionCall → ε × Except (List Char) (Observation × Rat)
  agentGen : α → List Char → StepContext → α × List Char
  agentReset : α → α

/-- `MLEDojoWrapper.reset` (mledojo_wrapper.py lines 47-55): reset the agent,
zero `current_episode_reward`, increment `episode_count`; `total_reward` is
untouched. -/
def MLEDojoWrapper.reset (C : Collab ε α) (a : α) (w : WrapperState) : α × WrapperState :=
  (C.agentReset a,
   { w with current_episode_reward := 0, episode_count := w.episode_count + 1 })

/-- The running state of the `run_episode` loop. -/
structure LoopState (ε α : Type) where
  env : ε
  agent : α
  w : WrapperState
  obs : Observation
  feedback_history : List StepRecord
  step_count : Nat

/-- The per-step `context` (mledojo_wrapper.py lines 220-226; `step_count` has
already been incremented when the context is built). -/
def mkCtx (ms : Int) (s : LoopState ε α) : StepContext :=
  { step := s.step_count + 1,
    max_steps := ms,
    current_reward := s.obs.scoreD,
    best_reward := s.obs.best_position_score.getD 0,
    feedback := s.obs.feedbackD }

/-- `"```python" in r or "```py" in r or "<code>" in r or "import " in r`
(mledojo_wrapper.py line 237). -/
def hasCodeMarker (response : List Char) : Bool :=
  containsSub ("```python".toList) response ||
  containsSub ("```py".toList) response ||
  containsSub ("<code>".toList) response ||
  containsSub ("import ".toList) response

/-- `env.step("request_info", info_type="overview")`. -/
def infoOverview : ActionCall := ActionCall.request_info ("overview".toList)

/-- `env.step("request_info", info_type="data_structure")`. -/
def infoDataStructure : ActionCall := ActionCall.request_info ("data_structure".toList)

/-- The degraded observation synthesised when both the primary submission and
the recovery submission raised (mledojo_wrapper.py line 275); `msg` is the
primary exception's message. -/
def syntheticObs (msg : List Char) : Observation :=
  { feedback := some (("Error: ".toList) ++ msg),
    current_position_score := none,
    best_position_score := none,
    action_status := some ("ERROR".toList) }

/-- The `try`/`except` action-resolution-and-submission block of one step
(mledojo_wrapper.py lines 235-276), returning either a propagated exception
message or the new environment state with the `(observation, reward)` pair,
together with the list of actions submitted to the environment in order.
A code-marked response goes through `_extract_code`; a `ValueError` from
extraction falls back to an information request (whose own failure is not
recovered: an exception raised inside an `except` handler propagates); any
other exception from the primary submission triggers exactly one recovery
request, and if that also raises, a synthetic degraded observation with zero
reward is substituted. -/
def stepAction (C : Collab ε α) (parseOk : List Char → Bool) (env : ε)
    (response : List Char) :
    Except (List Char) (ε × Observation × Rat) × List ActionCall :=
  if hasCodeMarker response then
    match _extract_code parseOk response with
    | Except.ok code =>
      match C.envStep env (ActionCall.execute_code code) with
      | (e1, Except.ok outcome) =>
        (Except.ok (e1, outcome.1, outcome.2), [ActionCall.execute_code code])
      | (e1, Except.error msg) =>
        match C.envStep e1 (infoOverview) with
        | (e2, Except.ok outcome) =>
          (Except.ok (e2, outcome.1, outcome.2),
           [ActionCall.execute_code code, infoOverview])
        | (e2, Except.error _) =>
          (Except.ok (e2, syntheticObs msg, 0),
           [ActionCall.execute_code code, infoOverview])
    | Except.error _ =>
      match C.envStep env (infoDataStructure) with
      | (e1, Except.ok outcome) =>
        (Except.ok (e1, outcome.1, outcome.2),
         [infoDataStructure])
      | (_, Except.error msg) =>
        (Except.error msg, [infoDataStructure])
  else
    match C.envStep env (infoDataStructure) with
    | (e1, Except.ok outcome) =>
      (Except.ok (e1, outcome.1, outcome.2),
       [infoDataStructure])
    | (e1, Except.error msg) =>
      match C.envStep e1 (infoOverview) with
      | (e2, Except.ok outcome) =>
        (Except.ok (e2, outcome.1, outcome.2),
         [infoDataStructure,
          infoOverview])
      | (e2, Except.error _) =>
        (Except.ok (e2, syntheticObs msg, 0),
         [infoDataStructure,
          infoOverview])

/-- The bookkeeping tail of one loop iteration (mledojo_wrapper.py
lines 278-288): set `current_episode_reward` to the new observation's score,
accumulate `total_reward`, append the `feedback_history` record. -/
def applyOutcome (s : LoopState ε α) (a2 : α) (step_count : Nat)
    (eor : ε × Observation × Rat) : LoopState ε α :=
  let o := eor.2.1
  let r := eor.2.2
  let current_score := o.scoreD
  { env := eor.1,
    agent := a2,
    w := { s.w with
           current_episode_reward := current_score,
           total_reward := s.w.total_reward + r },
    obs := o,
    feedback_history := s.feedback_history ++
      [{ step := step_count, action_status := o.statusD, reward := r,
         cumulative_score := current_score }],
    step_count := step_count }

/-- One full iteration of the `run_episode` loop (mledojo_wrapper.py
lines 210-288): increment the step counter, derive the feedback text, build
the context, obtain the agent's response, resolve and submit the action, and
update the bookkeeping.  Also returns the actions submitted this step. -/
def runStepCore (C : Collab ε α) (parseOk : List Char → Bool) (ms : Int)
    (s : LoopState ε α) :
    Except (List Char) (LoopState ε α) × List ActionCall :=
  let ag := C.agentGen s.agent s.obs.feedbackD (mkCtx ms s)
  let sa := stepAction C parseOk s.env ag.2
  (sa.1.map (fun eor => applyOutcome s ag.1 (s.step_count + 1) eor), sa.2)

/-- The `for step in range(max_steps)` loop; an unrecovered exception aborts
the run (propagates out of `run_episode`). -/
def runLoop (C : Collab ε α) (parseOk : List Char → Bool) (ms : Int) :
    Nat → LoopState ε α → Except (List Char) (LoopState ε α)
  | 0, s => Except.ok s
  | n + 1, s =>
    match (runStepCore C parseOk ms s).1 with
    | Except.error m => Except.error m
    | Except.ok s2 => runLoop C parseOk ms n s2

/-- `max_steps = max_steps or 10` (mledojo_wrapper.py line 197): `None` and
`0` are falsy and replaced by the default. -/
def effectiveMaxSteps (m : Option Int) : Int :=
  match m with
  | none => 10
  | some k => if k = 0 then 10 else k

/-- The dictionary returned by `run_episode` (mledojo_wrapper.py lines
304-311, spreading `get_stats()` from lines 143-150). -/
structure EpisodeResult where
  episode_count : Nat
  total_reward : Rat
  current_episode_reward : Rat
  avg_reward_per_episode : Rat
  feedback_history : List StepRecord
  final_position_score : Rat
  best_position_score : Rat
  steps_taken : Nat
  final_observation : Observation
deriving DecidableEq

/-- `MLEDojoWrapper.run_episode` (mledojo_wrapper.py lines 173-311): reset,
initial overview request (whose reward is discarded), baseline score from the
initial observation, the main loop, and the result dictionary. -/
def MLEDojoWrapper.run_episode (C : Collab ε α) (parseOk : List Char → Bool)
    (env0 : ε) (agent0 : α) (w0 : WrapperState) (max_steps : Option Int) :
    Except (List Char) EpisodeResult :=
  let ra := MLEDojoWrapper.reset C agent0 w0
  match C.envStep env0 (infoOverview) with
  | (_, Except.error m) => Except.error m
  | (e1, Except.ok init) =>
    let obs0 := init.1
    let ms := effectiveMaxSteps max_steps
    let w2 := { ra.2 with current_episode_reward := obs0.scoreD }
    let s0 : LoopState ε α :=
      { env := e1, agent := ra.1, w := w2, obs := obs0,
        feedback_history := [], step_count := 0 }
    match runLoop C parseOk ms ms.toNat s0 with
    | Except.error m => Except.error m
    | Except.ok sF =>
      Except.ok
        { episode_count := sF.w.episode_count,
          total_reward := sF.w.total_reward,
          current_episode_reward := sF.w.current_episode_reward,
          avg_reward_per_episode :=
            if sF.w.episode_count > 0 then
              sF.w.total_reward / (sF.w.episode_count : Rat)
            else 0,
          feedback_history := sF.feedback_history,
          final_position_score := sF.w.current_episode_reward,
          best_position_score := sF.obs.best_position_score.getD 0,
          steps_taken := sF.step_count,
          final_observation := sF.obs }

/-! ## Helper lemmas -/

deriving instance DecidableEq for Except

theorem exceptMap_eq_ok {γ α β : Type} (f : α → β) (x : Except γ α) (y : β)
    (h : Except.map f x = Except.ok y) : ∃ a, x = Except.ok a ∧ y = f a := by
  cases x with
  | error e => simp [Except.map] at h
  | ok a => exact ⟨a, rfl, by simpa [Except.map] using h.symm⟩

theorem splitNl_no_nl (l : List Char) (h : ('\n') ∉ l) : splitNl l = [l] := by
  induction l with
  | nil => rfl
  | cons c rest ih =>
    have hc : ¬ c = '\n' := fun hcn => h (hcn ▸ List.mem_cons_self c rest)
    have hr : ('\n') ∉ rest := fun hm => h (List.mem_cons_of_mem c hm)
    simp only [splitNl, if_neg hc, ih hr]

theorem splitNl_append_nl (l rest : List Char) (h : ('\n') ∉ l) :
    splitNl (l ++ '\n' :: rest) = l :: splitNl rest := by
  induction l with
  | nil => simp [splitNl]
  | cons c cs ih =>
    have hc : ¬ c = '\n' := fun hcn => h (hcn ▸ List.mem_cons_self c cs)
    have hr : ('\n') ∉ cs := fun hm => h (List.mem_cons_of_mem c hm)
    simp only [List.cons_append, splitNl, if_neg hc]
    rw [show cs.append ('\n' :: rest) = cs ++ '\n' :: rest from rfl, ih hr]

theorem joinNl_cons_cons (l m : List Char) (ls : List (List Char)) :
    joinNl (l :: m :: ls) = l ++ '\n' :: joinNl (m :: ls) := rfl

theorem splitNl_joinNl (ls : List (List Char)) (hne : ls ≠ [])
    (h : ∀ l ∈ ls, ('\n') ∉ l) : splitNl (joinNl ls) = ls := by
  induction ls with
  | nil => exact absurd rfl hne
  | cons l rest ih =>
    cases rest with
    | nil => exact splitNl_no_nl l (h l (List.mem_cons_self l []))
    | cons m ms =>
      rw [joinNl_cons_cons,
          splitNl_append_nl _ _ (h l (List.mem_cons_self l (m :: ms))),
          ih (by simp) (fun x hx => h x (List.mem_cons_of_mem l hx))]

/-! ## Claim theorems: wrapper reset and extraction pipeline -/

/-- C8: each call to `reset` sets `current_episode_reward` to `0.0`,
increments `episode_count` by exactly 1, and leaves `total_reward` unchanged;
consequently two consecutive calls yield `current_episode_reward = 0` after
both calls and raise `episode_count` by exactly 2. -/
theorem c8_reset_frame {ε α : Type} (C : Collab ε α) (a : α) (w : WrapperState) :
    (MLEDojoWrapper.reset C a w).2.current_episode_reward = 0 ∧
    (MLEDojoWrapper.reset C a w).2.episode_count = w.episode_count + 1 ∧
    (MLEDojoWrapper.reset C a w).2.total_reward = w.total_reward ∧
    (MLEDojoWrapper.reset C (MLEDojoWrapper.reset C a w).1
        (MLEDojoWrapper.reset C a w).2).2.current_episode_reward = 0 ∧
    (MLEDojoWrapper.reset C (MLEDojoWrapper.reset C a w).1
        (MLEDojoWrapper.reset C a w).2).2.episode_count = w.episode_count + 2 := by
  simp [MLEDojoWrapper.reset]

/-- C2: the candidate pool is tagged fenced blocks first; untagged fenced
blocks participate only when no tagged block was found; XML `<code>` blocks
are always appended regardless of fenced matches; candidates are validated in
pool order, so a valid first tagged block wins without consulting untagged
blocks, and a response with only an untagged fenced block uses that block. -/
theorem c2_pool_order :
    (∀ response : List Char, findTagged response ≠ [] →
       code_candidates response = findTagged response ++ findXml response) ∧
    (∀ response : List Char, findTagged response = [] →
       findPlain response ++ findXml response ≠ [] →
       code_candidates response = findPlain response ++ findXml response) ∧
    (∀ response : List Char, findTagged response = [] → findPlain response = [] →
       findXml response = [] →
       code_candidates response = heuristicCandidates response) ∧
    (∀ (parseOk : List Char → Bool) (response t : List Char) (ts : List (List Char)),
       findTagged response = t :: ts → pyStrip t ≠ [] → parseOk (pyStrip t) = true →
       _extract_code parseOk response = Except.ok (pyStrip t)) ∧
    (∀ (parseOk : List Char → Bool) (response u : List Char),
       findTagged response = [] → findXml response = [] → findPlain response = [u] →
       pyStrip u ≠ [] → parseOk (pyStrip u) = true →
       _extract_code parseOk response = Except.ok (pyStrip u)) := by
  refine ⟨?_, ?_, ?_, ?_, ?_⟩
  · intro response h
    simp [code_candidates, h]
  · intro response h hne
    simp [code_candidates, h, hne]
  · intro response h1 h2 h3
    simp [code_candidates, h1, h2, h3]
  · intro parseOk response t ts hfind hne hpk
    have hpool : code_candidates response = (t :: ts) ++ findXml response := by
      simp [code_candidates, hfind]
    rw [_extract_code, hpool]
    simp only [List.cons_append, selectCandidate, if_neg hne, if_pos hpk]
  · intro parseOk response u hT hX hP hne hpk
    have hpool : code_candidates response = [u] := by
      simp [code_candidates, hT, hP, hX]
    rw [_extract_code, hpool]
    simp only [selectCandidate, if_neg hne, if_pos hpk]

/-- C1 counterexample: the response consisting of a single python-tagged
fenced block with empty content.  Its content `""` is accepted by CPython's
`ast.parse` (the empty module), so the claim as stated demands that
`_extract_code` return the stripped content `""`; instead the code skips the
empty candidate and raises `ValueError`.  The oracle is irrelevant here (no
nonempty candidate is ever passed to it), so it is instantiated with the
constantly-true oracle, which in particular agrees with `ast.parse` on `""`. -/
theorem c1_counterexample :
    _extract_code (fun _ => true) ("```python\n```".toList) =
      Except.error ("```python\n```".toList) ∧
    _extract_code (fun _ => true) ("```python\n```".toList) ≠
      Except.ok (pyStrip ("".toList)) := by
  constructor
  · decide
  · decide

/-- C1 (amended): for every response whose single python-tagged fenced block
has content that strips to a nonempty string accepted by the parser,
`_extract_code` returns exactly that block's content with surrounding
whitespace stripped. -/
theorem c1_single_tagged_block (parseOk : List Char → Bool) (response c : List Char)
    (hfind : findTagged response = [c]) (hne : pyStrip c ≠ [])
    (hpk : parseOk (pyStrip c) = true) :
    _extract_code parseOk response = Except.ok (pyStrip c) := by
  have hpool : code_candidates response = [c] ++ findXml response := by
    simp [code_candidates, hfind]
  rw [_extract_code, hpool]
  simp only [List.cons_append, List.nil_append, selectCandidate, if_neg hne, if_pos hpk]

/-- C1 witness: the spec's own example.  The oracle accepts exactly the
expected stripped block, mirroring `ast.parse` on the strings that occur. -/
theorem c1_witness :
    findTagged ("Here:\n```python\nimport pandas as pd\nprint(1)\n```".toList) =
      ["import pandas as pd\nprint(1)\n".toList] ∧
    _extract_code (fun l => l == ("import pandas as pd\nprint(1)".toList))
        ("Here:\n```python\nimport pandas as pd\nprint(1)\n```".toList) =
      Except.ok ("import pandas as pd\nprint(1)".toList) := by
  refine ⟨by decide, ?_⟩
  have h := c1_single_tagged_block (fun l => l == ("import pandas as pd\nprint(1)".toList))
    ("Here:\n```python\nimport pandas as pd\nprint(1)\n```".toList)
    ("import pandas as pd\nprint(1)\n".toList) (by decide) (by decide) (by decide)
  exact h

/-- C6: a candidate that fails to parse as-is but parses after the cleanup
pass is returned in cleaned form by the extractor on the single retry, and
the cleanup pass is exactly: drop lines whose stripped form begins with one
of the explanatory markers, drop comment lines longer than 50 characters,
keep everything else — so a trailing explanatory line is removed. -/
theorem c6_cleanup_recovery :
    (∀ (parseOk : List Char → Bool) (response c : List Char),
       findTagged response = [c] → pyStrip c ≠ [] →
       parseOk (pyStrip c) = false → parseOk (_clean_code (pyStrip c)) = true →
       _extract_code parseOk response = Except.ok (_clean_code (pyStrip c))) ∧
    (∀ (body : List (List Char)) (note : List Char),
       (∀ l ∈ body, keepLine l = true) → (∀ l ∈ body, ('\n') ∉ l) →
       ('\n') ∉ note → keepLine note = false →
       _clean_code (joinNl (body ++ [note])) = pyStrip (joinNl body)) := by
  constructor
  · intro parseOk response c hfind hne hfail hclean
    have hpool : code_candidates response = [c] ++ findXml response := by
      simp [code_candidates, hfind]
    rw [_extract_code, hpool]
    simp only [List.cons_append, List.nil_append, selectCandidate,
      if_neg hne, hfail, Bool.false_eq_true, if_neg (Bool.false_ne_true), if_pos hclean]
    simp
  · intro body note hkeep hnlb hnln hdrop
    have hsplit : splitNl (joinNl (body ++ [note])) = body ++ [note] := by
      refine splitNl_joinNl (body ++ [note]) (by simp) ?_
      intro l hl
      rcases List.mem_append.mp hl with h | h
      · exact hnlb l h
      · rw [List.mem_singleton.mp h]; exact hnln
    rw [_clean_code, hsplit, List.filter_append,
        List.filter_eq_self.mpr hkeep]
    simp [List.filter, hdrop]

/-- C6 witness: a tagged block whose body is `x = 1` followed by the
explanatory line `Note: this prints the result`; the oracle accepts exactly
`x = 1`, mirroring `ast.parse` on the two strings that occur. -/
theorem c6_witness :
    _extract_code (fun l => l == ("x = 1".toList))
        ("```python\nx = 1\nNote: this prints the result\n```".toList) =
      Except.ok ("x = 1".toList) ∧
    _clean_code (joinNl (["x = 1".toList] ++ ["Note: this prints the result".toList])) =
      pyStrip (joinNl ["x = 1".toList]) := by
  constructor
  · exact (c6_cleanup_recovery.1 (fun l => l == ("x = 1".toList))
      ("```python\nx = 1\nNote: this prints the result\n```".toList)
      ("x = 1\nNote: this prints the result\n".toList)
      (by decide) (by decide) (by decide) (by decide))
  · exact (c6_cleanup_recovery.2 ["x = 1".toList] ("Note: this prints the result".toList)
      (by decide) (by decide) (by decide) (by decide))

theorem heuristicScanAux_nil_of_no_keyword (lines : List (List Char))
    (h : ∀ l ∈ lines, startsWithAny codeStartKeywords (pyStrip l) = false) :
    heuristicScanAux lines false = [] := by
  induction lines with
  | nil => rfl
  | cons line rest ih =>
    have h0 := h line (List.mem_cons_self line rest)
    simp only [heuristicScanAux, h0, Bool.or_false]
    exact ih (fun l hl => h l (List.mem_cons_of_mem line hl))

theorem heuristicScanAux_ne_nil_of_code_line :
    ∀ (lines : List (List Char)) (b : Bool),
      (∃ l ∈ lines, startsWithAny codeStartKeywords (pyStrip l) = true ∧
        pyStrip l ≠ [] ∧ looksNL (pyStrip l) = false) →
      heuristicScanAux lines b ≠ [] := by
  intro lines
  induction lines with
  | nil => intro b h; rcases h with ⟨l, hl, _⟩; exact absurd hl (List.not_mem_nil l)
  | cons line rest ih =>
    intro b h
    rcases h with ⟨l, hl, hkw, hne, hnl⟩
    rcases List.mem_cons.mp hl with rfl | hmem
    · simp only [heuristicScanAux, hkw, Bool.or_true, if_pos rfl, if_neg, hnl,
        Bool.false_eq_true, reduceIte, if_pos hne]
      simp [hne]
    · by_cases hb : (b || startsWithAny codeStartKeywords (pyStrip line)) = true
      · simp only [heuristicScanAux, hb, if_true]
        have htail := ih true ⟨l, hmem, hkw, hne, hnl⟩
        by_cases hstr : pyStrip line = []
        · simp [hstr]
        · by_cases hlnl : looksNL (pyStrip line) = true
          · simp [hstr, hlnl, htail]
          · simp [hstr, hlnl]
      · have hb2 : (b || startsWithAny codeStartKeywords (pyStrip line)) = false := by
          simpa using hb
        simp only [heuristicScanAux, hb2, Bool.false_eq_true, reduceIte]
        exact ih false ⟨l, hmem, hkw, hne, hnl⟩

/-- C7: with no fenced or tagged blocks, a response with a line whose
stripped form starts with an import/definition keyword (and is itself a code
line, like `import numpy as np`) makes the heuristic scan contribute a
candidate to the pool; a pure-prose response with no such line makes
`_extract_code` fail with an error carrying the original response truncated
to 200 characters. -/
theorem c7_heuristic_fallback :
    (∀ response : List Char,
       findTagged response = [] → findPlain response = [] → findXml response = [] →
       (∃ l ∈ splitNl response, startsWithAny codeStartKeywords (pyStrip l) = true ∧
          pyStrip l ≠ [] ∧ looksNL (pyStrip l) = false) →
       code_candidates response ≠ []) ∧
    (∀ (parseOk : List Char → Bool) (response : List Char),
       findTagged response = [] → findPlain response = [] → findXml response = [] →
       (∀ l ∈ splitNl response, startsWithAny codeStartKeywords (pyStrip l) = false) →
       _extract_code parseOk response = Except.error (response.take 200)) := by
  constructor
  · intro response hT hP hX hex
    have hpool : code_candidates response = heuristicCandidates response := by
      simp [code_candidates, hT, hP, hX]
    rw [hpool, heuristicCandidates]
    have hne := heuristicScanAux_ne_nil_of_code_line (splitNl response) false hex
    simp [hne]
  · intro parseOk response hT hP hX hall
    have hscan := heuristicScanAux_nil_of_no_keyword (splitNl response) hall
    have hpool : code_candidates response = [] := by
      simp [code_candidates, hT, hP, hX, heuristicCandidates, hscan]
    rw [_extract_code, hpool]
    rfl

/-- C7 witness: a keyword-led response yields a candidate; a pure-prose
response fails with the 200-character preview. -/
theorem c7_witness :
    code_candidates ("import numpy as np\nx = np.ones(3)".toList) ≠ [] ∧
    _extract_code (fun _ => true) ("Sorry, I cannot help with that.".toList) =
      Except.error (("Sorry, I cannot help with that.".toList).take 200) := by
  constructor
  · exact c7_heuristic_fallback.1 ("import numpy as np\nx = np.ones(3)".toList)
      (by decide) (by decide) (by decide)
      ⟨"import numpy as np".toList, by decide, by decide, by decide, by decide⟩
  · exact c7_heuristic_fallback.2 (fun _ => true) ("Sorry, I cannot help with that.".toList)
      (by decide) (by decide) (by decide) (by decide)

/-! ## Claim theorems: prompt composer history windowing -/

/-- C9 counterexample: with one history entry and `max_turns = 0` the claim
demands a window of `min 1 0 = 0` entries, but `history[-0:]` in Python is
`history[0:]`, the whole list: the rendered block contains the entry. -/
theorem c9_counterexample :
    recent_history [{ observation := "o1", response := "r1" }] 0 ≠ [] ∧
    _format_history [{ observation := "o1", response := "r1" }] 0 ≠ "" := by
  constructor
  · decide
  · decide

/-- C9 (amended): for every history and every positive window size
`max_turns`, the rendered history block is built from exactly the last
`min L max_turns` entries in chronological order, numbered from 1 within the
window. -/
theorem c9_history_window (history : List HistoryEntry) (max_turns : Int)
    (hpos : 1 ≤ max_turns) :
    recent_history history max_turns =
      history.drop (history.length - min history.length max_turns.toNat) ∧
    _format_history history max_turns =
      String.intercalate "\n" (List.flatten (numberTurnsFrom 1
        (history.drop (history.length - min history.length max_turns.toNat)))) := by
  have hwin : recent_history history max_turns =
      history.drop (history.length - min history.length max_turns.toNat) := by
    rw [recent_history]
    by_cases hlen : (history.length : Int) > max_turns
    · rw [if_pos hlen, pySliceFrom, if_pos (by omega)]
      congr 1
      omega
    · rw [if_neg hlen]
      have h0 : history.length - min history.length max_turns.toNat = 0 := by omega
      rw [h0, List.drop_zero]
  exact ⟨hwin, by rw [_format_history, hwin]⟩

/-- C9 witness: 10 entries with `max_turns = 3` render exactly entries
7, 8, 9 (0-indexed), excluding entry 0. -/
theorem c9_witness :
    (1 : Int) ≤ 3 ∧
    recent_history
      [{ observation := "o0", response := "r0" }, { observation := "o1", response := "r1" },
       { observation := "o2", response := "r2" }, { observation := "o3", response := "r3" },
       { observation := "o4", response := "r4" }, { observation := "o5", response := "r5" },
       { observation := "o6", response := "r6" }, { observation := "o7", response := "r7" },
       { observation := "o8", response := "r8" }, { observation := "o9", response := "r9" }] 3 =
      [{ observation := "o7", response := "r7" }, { observation := "o8", response := "r8" },
       { observation := "o9", response := "r9" }] := by
  refine ⟨by decide, ?_⟩
  rw [(c9_history_window
    [{ observation := "o0", response := "r0" }, { observation := "o1", response := "r1" },
     { observation := "o2", response := "r2" }, { observation := "o3", response := "r3" },
     { observation := "o4", response := "r4" }, { observation := "o5", response := "r5" },
     { observation := "o6", response := "r6" }, { observation := "o7", response := "r7" },
     { observation := "o8", response := "r8" }, { observation := "o9", response := "r9" }] 3
    (by decide)).1]
  decide

/-! ## Episode-loop invariants -/

/-- Bookkeeping invariant maintained by the episode loop:
`current_episode_reward` mirrors the latest observation's score (with the
code's default 0 for an absent field), and the ledger's step indices are
exactly `1, 2, ..., step_count`. -/
def LedgerInv (s : LoopState ε α) : Prop :=
  s.w.current_episode_reward = s.obs.scoreD ∧
  s.feedback_history.map StepRecord.step = List.range' 1 s.step_count

theorem runStepCore_ok_inv (C : Collab ε α) (parseOk : List Char → Bool) (ms : Int)
    (s s2 : LoopState ε α) (h : (runStepCore C parseOk ms s).1 = Except.ok s2)
    (hI : LedgerInv s) : LedgerInv s2 ∧ s2.step_count = s.step_count + 1 := by
  simp only [runStepCore] at h
  obtain ⟨eor, _, hy⟩ := exceptMap_eq_ok _ _ _ h
  subst hy
  refine ⟨⟨rfl, ?_⟩, rfl⟩
  show (s.feedback_history ++ [_]).map StepRecord.step = List.range' 1 (s.step_count + 1)
  rw [List.map_append, hI.2, List.range'_1_concat]
  simp [Nat.add_comm]

theorem runLoop_ok_inv (C : Collab ε α) (parseOk : List Char → Bool) (ms : Int) :
    ∀ (n : Nat) (s sF : LoopState ε α),
      runLoop C parseOk ms n s = Except.ok sF → LedgerInv s →
      LedgerInv sF ∧ sF.step_count = s.step_count + n := by
  intro n
  induction n with
  | zero =>
    intro s sF h hI
    simp only [runLoop] at h
    cases h
    exact ⟨hI, rfl⟩
  | succ k ih =>
    intro s sF h hI
    simp only [runLoop] at h
    cases hstep : (runStepCore C parseOk ms s).1 with
    | error m =>
      rw [hstep] at h
      exact Except.noConfusion h
    | ok s2 =>
      rw [hstep] at h
      obtain ⟨hI2, hsc⟩ := runStepCore_ok_inv C parseOk ms s s2 hstep hI
      obtain ⟨hIF, hscF⟩ := ih s2 sF h hI2
      exact ⟨hIF, by omega⟩

theorem map_step_range'_get :
    ∀ (l : List StepRecord) (s0 : Nat),
      l.map StepRecord.step = List.range' (s0 + 1) l.length →
      ∀ (i : Nat) (hi : i < l.length), (l.get ⟨i, hi⟩).step = s0 + 1 + i := by
  intro l
  induction l with
  | nil =>
    intro s0 h i hi
    exact absurd hi (by simp)
  | cons a t ih =>
    intro s0 h i hi
    rw [List.length_cons, List.range'_succ] at h
    injection h with h1 h2
    cases i with
    | zero => simpa using h1
    | succ j =>
      have hj : j < t.length := by simpa using hi
      have hrec := ih (s0 + 1) h2 j hj
      show (t.get ⟨j, hj⟩).step = s0 + 1 + (j + 1)
      rw [hrec]
      omega

/-- Shape of a successfully completed episode: the returned dictionary is a
projection of the final loop state, which satisfies the ledger invariant and
has run exactly the effective number of steps. -/
theorem run_episode_ok_shape {ε α : Type} (C : Collab ε α) (parseOk : List Char → Bool)
    (env0 : ε) (agent0 : α) (w0 : WrapperState) (m : Option Int) (r : EpisodeResult)
    (hrun : MLEDojoWrapper.run_episode C parseOk env0 agent0 w0 m = Except.ok r) :
    ∃ sF : LoopState ε α, LedgerInv sF ∧
      sF.step_count = (effectiveMaxSteps m).toNat ∧
      r.feedback_history = sF.feedback_history ∧
      r.steps_taken = sF.step_count ∧
      r.current_episode_reward = sF.w.current_episode_reward ∧
      r.final_observation = sF.obs := by
  unfold MLEDojoWrapper.run_episode at hrun
  rcases hE : C.envStep env0 (infoOverview) with ⟨e1, v⟩
  rw [hE] at hrun
  cases v with
  | error m0 => exact Except.noConfusion hrun
  | ok init =>
    dsimp only at hrun
    cases hL : runLoop C parseOk (effectiveMaxSteps m) (effectiveMaxSteps m).toNat
        { env := e1, agent := (MLEDojoWrapper.reset C agent0 w0).1,
          w := { (MLEDojoWrapper.reset C agent0 w0).2 with
                 current_episode_reward := init.1.scoreD },
          obs := init.1, feedback_history := [], step_count := 0 } with
    | error m1 =>
      rw [hL] at hrun
      exact Except.noConfusion hrun
    | ok sF =>
      rw [hL] at hrun
      injection hrun with hr
      obtain ⟨hIF, hsc⟩ :=
        runLoop_ok_inv C parseOk (effectiveMaxSteps m) (effectiveMaxSteps m).toNat _ sF hL
          ⟨rfl, rfl⟩
      refine ⟨sF, hIF, by simpa using hsc, ?_, ?_, ?_, ?_⟩ <;> rw [← hr]

/-! ## Claim theorems: episode controller -/

/-- C5: every completed run of `run_episode` (in particular one with no
failures) leaves a ledger with exactly one record per loop iteration, with
step indices `i + 1` at position `i`, and `current_episode_reward` equal to
the `current_position_score` of the final observation (with the code's
default 0 for an absent field) rather than an accumulated sum. -/
theorem c5_ledger_invariants {ε α : Type} (C : Collab ε α) (parseOk : List Char → Bool)
    (env0 : ε) (agent0 : α) (w0 : WrapperState) (m : Option Int) (r : EpisodeResult)
    (hrun : MLEDojoWrapper.run_episode C parseOk env0 agent0 w0 m = Except.ok r) :
    r.feedback_history.length = r.steps_taken ∧
    r.steps_taken = (effectiveMaxSteps m).toNat ∧
    (∀ (i : Nat) (hi : i < r.feedback_history.length),
       (r.feedback_history.get ⟨i, hi⟩).step = i + 1) ∧
    r.current_episode_reward = r.final_observation.scoreD := by
  obtain ⟨sF, hIF, hsc, hfh, hst, hcer, hobs⟩ :=
    run_episode_ok_shape C parseOk env0 agent0 w0 m r hrun
  have hlen : r.feedback_history.length = sF.step_count := by
    have := congrArg List.length hIF.2
    simpa [hfh] using this
  refine ⟨by rw [hlen, hst], by rw [hst, hsc], ?_, ?_⟩
  · intro i hi
    have hmap : r.feedback_history.map StepRecord.step =
        List.range' (0 + 1) r.feedback_history.length := by
      rw [hfh, hIF.2, hlen.symm]
      simp [hfh]
    have := map_step_range'_get r.feedback_history 0 hmap i hi
    omega
  · rw [hcer, hobs, hIF.1]

/-- C5 / C10 witness environment: a benign collaborator pair whose
environment never raises and whose agent answers plain prose. -/
def obsBenign : Observation :=
  { feedback := some ("go".toList), current_position_score := some 1,
    best_position_score := some 1, action_status := some ("VALID".toList) }

def collabBenign : Collab Unit Unit :=
  { envStep := fun _ _ => ((), Except.ok (obsBenign, 0)),
    agentGen := fun _ _ _ => ((), "hello".toList),
    agentReset := fun _ => () }

def w0Benign : WrapperState :=
  { episode_count := 0, total_reward := 0, current_episode_reward := 0 }

def emptyObs : Observation :=
  { feedback := none, current_position_score := none,
    best_position_score := none, action_status := none }

def runBenign : Except (List Char) EpisodeResult :=
  MLEDojoWrapper.run_episode collabBenign (fun _ => false) () () w0Benign (some 3)

def resBenign : EpisodeResult :=
  runBenign.toOption.getD
    { episode_count := 0, total_reward := 0, current_episode_reward := 0,
      avg_reward_per_episode := 0, feedback_history := [], final_position_score := 0,
      best_position_score := 0, steps_taken := 0, final_observation := emptyObs }

/-- C5 witness: a concrete three-step run with no failures. -/
theorem c5_witness :
    runBenign = Except.ok resBenign ∧
    resBenign.feedback_history.length = resBenign.steps_taken ∧
    resBenign.steps_taken = 3 ∧
    resBenign.current_episode_reward = resBenign.final_observation.scoreD := by
  have hEq : runBenign = Except.ok resBenign := by rfl
  obtain ⟨h1, h2, _, h4⟩ :=
    c5_ledger_invariants collabBenign (fun _ => false) () () w0Benign (some 3) resBenign hEq
  refine ⟨hEq, h1, ?_, h4⟩
  rw [h2]
  decide

/-- C10: the effective step budget is `max_steps or 10`, so `None` and `0`
both yield exactly 10 loop iterations and a positive `n` yields exactly `n`;
a completed run's `steps_taken` equals that effective budget. -/
theorem c10_step_budget {ε α : Type} (C : Collab ε α) (parseOk : List Char → Bool)
    (env0 : ε) (agent0 : α) (w0 : WrapperState) (m : Option Int) (r : EpisodeResult)
    (hrun : MLEDojoWrapper.run_episode C parseOk env0 agent0 w0 m = Except.ok r) :
    r.steps_taken = (effectiveMaxSteps m).toNat ∧
    effectiveMaxSteps none = 10 ∧
    effectiveMaxSteps (some 0) = 10 ∧
    (∀ k : Int, 0 < k → effectiveMaxSteps (some k) = k) := by
  obtain ⟨sF, _, hsc, _, hst, _, _⟩ :=
    run_episode_ok_shape C parseOk env0 agent0 w0 m r hrun
  refine ⟨by rw [hst, hsc], rfl, rfl, ?_⟩
  intro k hk
  simp [effectiveMaxSteps]
  omega

/-- C10 witness: a concrete run with `max_steps = 3` takes exactly 3 steps,
and the falsy defaults evaluate to 10. -/
theorem c10_witness :
    runBenign = Except.ok resBenign ∧ resBenign.steps_taken = 3 ∧
    effectiveMaxSteps none = 10 ∧ effectiveMaxSteps (some 0) = 10 := by
  have hEq : runBenign = Except.ok resBenign := by rfl
  obtain ⟨h1, h2, h3, _⟩ :=
    c10_step_budget collabBenign (fun _ => false) () () w0Benign (some 3) resBenign hEq
  refine ⟨hEq, ?_, h2, h3⟩
  rw [h1]
  decide

/-- The first action submitted to the environment in one step, as resolved
from the response (mledojo_wrapper.py lines 237-251): `execute_code` with the
extracted text when a code-marked response extracts successfully, otherwise a
`data_structure` information request. -/
def resolvedPrimary (parseOk : List Char → Bool) (response : List Char) : ActionCall :=
  if hasCodeMarker response then
    match _extract_code parseOk response with
    | Except.ok code => ActionCall.execute_code code
    | Except.error _ => infoDataStructure
  else infoDataStructure

/-- C3: extraction is attempted when and only when the response carries a
code-fence, tag, or import marker; on success the first submitted action is
`execute_code` with the extracted text; on extraction failure the first
submitted action is a `request_info` and the extraction error never escapes
(a successful fallback submission completes the step, and any propagated
error is the environment's, from the fallback call); with no marker the step
submits `request_info` directly and never consults the extractor (the step is
independent of the parse oracle). -/
theorem c3_action_resolution {ε α : Type} (C : Collab ε α) (parseOk : List Char → Bool)
    (env : ε) (response : List Char) :
    (∀ code : List Char, hasCodeMarker response = true →
       _extract_code parseOk response = Except.ok code →
       (stepAction C parseOk env response).2.head? =
         some (ActionCall.execute_code code)) ∧
    (∀ p : List Char, hasCodeMarker response = true →
       _extract_code parseOk response = Except.error p →
       (stepAction C parseOk env response).2.head? =
         some (infoDataStructure) ∧
       (∀ (e1 : ε) (o : Observation) (rr : Rat),
          C.envStep env (infoDataStructure) =
            (e1, Except.ok (o, rr)) →
          (stepAction C parseOk env response).1 = Except.ok (e1, o, rr)) ∧
       (∀ msg : List Char, (stepAction C parseOk env response).1 = Except.error msg →
          (C.envStep env (infoDataStructure)).2 =
            Except.error msg)) ∧
    (hasCodeMarker response = false →
       (stepAction C parseOk env response).2.head? =
         some (infoDataStructure) ∧
       ∀ parseOk2 : List Char → Bool,
         stepAction C parseOk env response = stepAction C parseOk2 env response) := by
  refine ⟨?_, ?_, ?_⟩
  · intro code hm hext
    unfold stepAction
    rw [if_pos hm, hext]
    rcases hE : C.envStep env (ActionCall.execute_code code) with ⟨e1, v⟩
    cases v with
    | ok outcome => simp [hE]
    | error msg =>
      rcases hE2 : C.envStep e1 (infoOverview) with ⟨e2, v2⟩
      cases v2 <;> simp [hE, hE2]
  · intro p hm hext
    refine ⟨?_, ?_, ?_⟩
    · unfold stepAction
      rw [if_pos hm, hext]
      rcases hE : C.envStep env (infoDataStructure) with ⟨e1, v⟩
      cases v <;> simp [hE]
    · intro e1 o rr hE
      unfold stepAction
      rw [if_pos hm, hext]
      simp [hE]
    · intro msg hmsg
      unfold stepAction at hmsg
      rw [if_pos hm, hext] at hmsg
      rcases hE : C.envStep env (infoDataStructure) with ⟨e1, v⟩
      rw [hE] at hmsg
      cases v with
      | ok outcome => simp at hmsg
      | error m2 =>
        simp at hmsg
        simp [hmsg]
  · intro hm
    have hcond : ¬ hasCodeMarker response = true := by simp [hm]
    constructor
    · unfold stepAction
      rw [if_neg hcond]
      rcases hE : C.envStep env (infoDataStructure) with ⟨e1, v⟩
      cases v with
      | ok outcome => simp [hE]
      | error msg =>
        rcases hE2 : C.envStep e1 (infoOverview) with ⟨e2, v2⟩
        cases v2 <;> simp [hE, hE2]
    · intro parseOk2
      unfold stepAction
      rw [if_neg hcond, if_neg hcond]

/-- Concrete collaborators for the step-level witnesses: an environment that
always raises, and one used with code-marked responses. -/
def collabRaise : Collab Nat Unit :=
  { envStep := fun e _ => (e + 1, Except.error ("boom".toList)),
    agentGen := fun _ _ _ => ((), "hello".toList),
    agentReset := fun a => a }

def sRaise : LoopState Nat Unit :=
  { env := 0, agent := (),
    w := { episode_count := 1, total_reward := 0, current_episode_reward := 0 },
    obs := emptyObs, feedback_history := [], step_count := 0 }

/-- C3 witness: a python-tagged response whose block extracts to `x = 1`
makes the step's first submitted action `execute_code` with exactly that
text. -/
theorem c3_witness :
    (stepAction collabRaise (fun l => l == ("x = 1".toList)) 0
        ("```python\nx = 1\n```".toList)).2.head? =
      some (ActionCall.execute_code ("x = 1".toList)) :=
  (c3_action_resolution collabRaise (fun l => l == ("x = 1".toList)) 0
      ("```python\nx = 1\n```".toList)).1 ("x = 1".toList) (by decide) (by decide)

/-- C4: when the environment raises on both the primary submission and the
single recovery submission in one step, the step still completes: the
synthetic degraded observation carrying the primary error message and status
`ERROR` is substituted, a ledger record with step reward `0` and status
`ERROR` is appended, and the loop proceeds to the next step. -/
theorem c4_degraded_step {ε α : Type} (C : Collab ε α) (parseOk : List Char → Bool)
    (ms : Int) (s : LoopState ε α) (a2 : α) (response : List Char)
    (hagent : C.agentGen s.agent s.obs.feedbackD (mkCtx ms s) = (a2, response))
    (hpath : hasCodeMarker response = false ∨
             ∃ code : List Char, _extract_code parseOk response = Except.ok code)
    (e1 e2 : ε) (m m2 : List Char)
    (hprim : C.envStep s.env (resolvedPrimary parseOk response) = (e1, Except.error m))
    (hrec : C.envStep e1 (infoOverview) =
      (e2, Except.error m2)) :
    (runStepCore C parseOk ms s).1 =
      Except.ok (applyOutcome s a2 (s.step_count + 1) (e2, syntheticObs m, 0)) ∧
    (applyOutcome s a2 (s.step_count + 1) (e2, syntheticObs m, 0)).feedback_history =
      s.feedback_history ++
        [{ step := s.step_count + 1, action_status := ("ERROR".toList), reward := 0,
           cumulative_score := 0 }] ∧
    ∀ n : Nat, runLoop C parseOk ms (n + 1) s =
      runLoop C parseOk ms n (applyOutcome s a2 (s.step_count + 1) (e2, syntheticObs m, 0)) := by
  have hstep : (stepAction C parseOk s.env response).1 =
      Except.ok (e2, syntheticObs m, 0) := by
    by_cases hm : hasCodeMarker response = true
    · rcases hpath with hmf | ⟨code, hext⟩
      · rw [hm] at hmf
        exact absurd hmf (by simp)
      · have hp : resolvedPrimary parseOk response = ActionCall.execute_code code := by
          unfold resolvedPrimary
          rw [if_pos hm, hext]
        rw [hp] at hprim
        unfold stepAction
        rw [if_pos hm, hext]
        simp only [hprim, hrec]
    · have hp : resolvedPrimary parseOk response =
          infoDataStructure := by
        unfold resolvedPrimary
        rw [if_neg hm]
      rw [hp] at hprim
      unfold stepAction
      rw [if_neg hm]
      simp only [hprim, hrec]
  have hcore : (runStepCore C parseOk ms s).1 =
      Except.ok (applyOutcome s a2 (s.step_count + 1) (e2, syntheticObs m, 0)) := by
    simp only [runStepCore, hagent]
    rw [hstep]
    rfl
  refine ⟨hcore, rfl, ?_⟩
  intro n
  show (match (runStepCore C parseOk ms s).1 with
        | Except.error m => Except.error m
        | Except.ok s2 => runLoop C parseOk ms n s2) = _
  rw [hcore]

/-- C4 witness: a concrete step in which the environment raises on the
primary submission and again on the recovery submission; the step completes
with the synthetic `ERROR` record at reward `0`. -/
theorem c4_witness :
    (runStepCore collabRaise (fun _ => false) 10 sRaise).1 =
      Except.ok (applyOutcome sRaise () 1 (2, syntheticObs ("boom".toList), 0)) ∧
    (applyOutcome sRaise () 1 (2, syntheticObs ("boom".toList), 0)).feedback_history =
      [{ step := 1, action_status := ("ERROR".toList), reward := 0,
         cumulative_score := 0 }] := by
  have h := c4_degraded_step collabRaise (fun _ => false) 10 sRaise () ("hello".toList)
    (by rfl) (Or.inl (by decide)) 1 2 ("boom".toList) ("boom".toList) (by rfl) (by rfl)
  exact ⟨h.1, h.2.1⟩

/-- C2 witness: a response with both a python-tagged and an untagged fenced
block extracts from the tagged one; a response with only an untagged fenced
block extracts from it.  The oracles accept exactly the stripped blocks,
mirroring `ast.parse` on the strings that occur. -/
theorem c2_witness :
    _extract_code (fun l => l == ("a = 1".toList) || l == ("b = 2".toList))
        ("```python\na = 1\n```\nand\n```\nb = 2\n```".toList) =
      Except.ok ("a = 1".toList) ∧
    _extract_code (fun l => l == ("b = 2".toList))
        ("text\n```\nb = 2\n```".toList) = Except.ok ("b = 2".toList) := by
  constructor
  · exact c2_pool_order.2.2.2.1 (fun l => l == ("a = 1".toList) || l == ("b = 2".toList))
      ("```python\na = 1\n```\nand\n```\nb = 2\n```".toList) ("a = 1\n".toList) []
      (by decide) (by decide) (by decide)
  · exact c2_pool_order.2.2.2.2 (fun l => l == ("b = 2".toList))
      ("text\n```\nb = 2\n```".toList) ("b = 2\n".toList)
      (by decide) (by decide) (by decide) (by decide) (by decide)
